import Mathlib

/-!
Shallow embedding of `src/packages/ckeditor5-ckbox/src/ckboximageedit/ckboximageeditcommand.ts`
(class `CKBoxImageEditCommand`).

The command is event driven.  We embed:
* the raw asset data carried by the CKBox dialog and by the status endpoint
  (`CKBoxRawAssetDataDefinition` with its `metadata.metadataProcessingStatus`),
* the per-attempt status check `_getAssetStatusFromServer` (the part after the
  HTTP transport has produced a response: the transport itself is external, so a
  poll run is driven by an `endpoint : Nat → CKBoxRawAssetDataDefinition` giving
  the response of each attempt),
* the generic `retry` utility (from ckeditor5/src/utils, outside this slice,
  modelled from the spec) together with an attempt counter,
* `_waitForAssetProcessed`, which swallows the retry failure,
* the command state (`value`, `isEnabled`, `_wrapper`, `_ckboxImageId`) and the
  `refresh`, `ckboxImageEditor:open`, `ckboxImageEditor:close`,
  `ckboxImageEditor:save` and `ckboxImageEditor:processed` listeners, with their
  outward actions reified as an `Effect` list,
* the allocation of `AbortController` instances, reified as fresh numeric ids,
  for the cancellation-scoping claims.
-/

namespace CKBoxImageEdit

/-- Metadata of a raw asset as the status endpoint reports it.  The field
`metadataProcessingStatus` is optional in the source (`!status` guards it);
`none` models a missing value.  Width and height stand for the payload fields
used to build image attributes. -/
structure CKBoxRawAssetMetadataDefinition where
  metadataProcessingStatus : Option String
  width : Nat
  height : Nat
  deriving DecidableEq, Repr

/-- `CKBoxRawAssetDataDefinition` from ckboxconfig: the data carried by a save
event and returned by the status endpoint.  `imageUrl` stands for the fields
from which the image source attributes are built. -/
structure CKBoxRawAssetDataDefinition where
  id : String
  metadata : CKBoxRawAssetMetadataDefinition
  imageUrl : String
  deriving DecidableEq, Repr

/-- `CKBoxRawAssetDefinition`: the asset wrapper handed to the save listener. -/
structure CKBoxRawAssetDefinition where
  data : CKBoxRawAssetDataDefinition
  deriving DecidableEq, Repr

/-- JavaScript falsiness of the optional string `status`: `!status` is true for
a missing value and for the empty string. -/
def jsFalsyStr : Option String → Bool
  | none => true
  | some s => s == ""

/-- Whether an `Except` result is a success. -/
def exceptIsOk {α : Type} : Except String α → Bool
  | Except.ok _ => true
  | Except.error _ => false

/-- One attempt of `_getAssetStatusFromServer`, applied to the response the HTTP
layer returned for this attempt: reads `response.metadata.metadataProcessingStatus`
and throws `Image has not been processed yet.` when `!status || status == "queued"`,
otherwise returns the response unchanged. -/
def getAssetStatusFromServer (response : CKBoxRawAssetDataDefinition) :
    Except String CKBoxRawAssetDataDefinition :=
  let status := response.metadata.metadataProcessingStatus
  if jsFalsyStr status || status == some "queued" then
    Except.error "Image has not been processed yet."
  else
    Except.ok response

/-- Modelled from the spec: the generic `retry` utility of ckeditor5/src/utils is
not part of this slice; the spec describes it as a bounded number of attempts,
failing when the bound is exhausted.  `retryTrace action k n` runs `action` on
attempt indices `k, k+1, ...` for at most `n` attempts, returning the first
success or the failure at exhaustion, together with the number of attempts made. -/
def retryTrace {α : Type} (action : Nat → Except String α) :
    Nat → Nat → Except String α × Nat
  | _, 0 => (Except.error "retry attempts exhausted", 0)
  | k, n + 1 =>
      match action k with
      | Except.ok a => (Except.ok a, 1)
      | Except.error _ =>
          let p := retryTrace action (k + 1) n
          (p.1, p.2 + 1)

/-- Modelled from the spec: the result of the bounded `retry` utility with
attempt bound `maxAttempts`. -/
def retry {α : Type} (action : Nat → Except String α) (maxAttempts : Nat) :
    Except String α :=
  (retryTrace action 0 maxAttempts).1

/-- The poll action of `_waitForAssetProcessed`: attempt `k` runs
`_getAssetStatusFromServer` on the response the endpoint gives to attempt `k`. -/
def pollAction (endpoint : Nat → CKBoxRawAssetDataDefinition) :
    Nat → Except String CKBoxRawAssetDataDefinition :=
  fun k => getAssetStatusFromServer (endpoint k)

/-- `_waitForAssetProcessed`: awaits the bounded retry of
`_getAssetStatusFromServer` and catches any failure (the TODO branch in the
source), so it resolves with the refined data on success and with `undefined`
(`none`) when the retry bound is exhausted; it never rejects. -/
def waitForAssetProcessed (endpoint : Nat → CKBoxRawAssetDataDefinition)
    (maxAttempts : Nat) : Option CKBoxRawAssetDataDefinition :=
  match retry (pollAction endpoint) maxAttempts with
  | Except.ok r => some r
  | Except.error _ => none

/-- The selected model element, as far as `refresh` inspects it: its element
name and its optional `ckboxImageId` attribute (`hasAttribute` is `isSome`,
`getAttribute` is the stored value). -/
structure ModelElement where
  name : String
  ckboxImageId : Option String
  deriving DecidableEq, Repr

/-- The mutable state of `CKBoxImageEditCommand`: `value`, `isEnabled`, the
mount point `_wrapper` (a DOM element reified by its allocation id) and the
cached `_ckboxImageId`. -/
structure CmdState where
  value : Bool
  isEnabled : Bool
  wrapper : Option Nat
  ckboxImageId : Option String
  deriving DecidableEq, Repr

/-- `_getValue`: whether `_wrapper` is not null. -/
def getValue (s : CmdState) : Bool :=
  s.wrapper.isSome

/-- The `selectedElement && (is imageInline || is imageBlock)` test of `refresh`. -/
def isImageElement : Option ModelElement → Bool
  | none => false
  | some el => el.name == "imageInline" || el.name == "imageBlock"

/-- `refresh`, given the current selection: recomputes `value` from the wrapper,
and `isEnabled` and `_ckboxImageId` from the selected element. -/
def refresh (sel : Option ModelElement) (s : CmdState) : CmdState :=
  let s1 := { s with value := getValue s }
  match sel with
  | some el =>
      if isImageElement (some el) && el.ckboxImageId.isSome then
        { s1 with isEnabled := true, ckboxImageId := el.ckboxImageId }
      else
        { s1 with isEnabled := false, ckboxImageId := none }
  | none => { s1 with isEnabled := false, ckboxImageId := none }

/-- The image attributes written to the model by the processed listener. -/
structure ImageAttrs where
  src : String
  width : Nat
  height : Nat
  deriving DecidableEq, Repr

/-- Modelled from the spec: `prepareImageAssetAttributes` lives in ckboxcommand,
outside this slice; per the spec it derives the attribute bundle (source url,
width, height, ...) from the asset it is given. -/
def prepareImageAssetAttributes (asset : CKBoxRawAssetDefinition) : ImageAttrs :=
  { src := asset.data.imageUrl
    width := asset.data.metadata.width
    height := asset.data.metadata.height }

/-- The outward actions of the listeners, reified for observation.  The
constructors `fireProcessingFailed` and `abortInstanceController` are
vocabulary only: stating that no listener ever emits them expresses that no
failure event is emitted and that the instance controller never aborts a poll. -/
inductive Effect where
  | createWrapper (id : Nat)
  | appendWrapperToBody (id : Nat)
  | mountImageEditor (id : Nat) (assetId : Option String)
  | removeWrapper (id : Nat)
  | focusEditingView
  | fireProcessed (asset : CKBoxRawAssetDefinition)
  | insertImage (attrs : ImageAttrs)
  | setCkboxImageIdAttr (assetId : String)
  | fireProcessingFailed
  | abortInstanceController
  deriving DecidableEq, Repr

/-- The `ckboxImageEditor:open` listener: returns unchanged when the command is
disabled or the dialog is already open; otherwise sets `value`, allocates the
wrapper element (`fresh` is its id), appends it to the body and mounts the
image editor on it with the cached asset id. -/
def openHandler (fresh : Nat) (s : CmdState) : CmdState × List Effect :=
  if !s.isEnabled || getValue s then
    (s, [])
  else
    ({ s with value := true, wrapper := some fresh },
     [Effect.createWrapper fresh,
      Effect.appendWrapperToBody fresh,
      Effect.mountImageEditor fresh s.ckboxImageId])

/-- The `ckboxImageEditor:close` listener: a no-op without a wrapper; otherwise
removes the wrapper, nulls it and focuses the editing view.  It touches no
other field. -/
def closeHandler (s : CmdState) : CmdState × List Effect :=
  match s.wrapper with
  | none => (s, [])
  | some w =>
      ({ s with wrapper := none },
       [Effect.removeWrapper w, Effect.focusEditingView])

/-- Firing `ckboxImageEditor:open`: the open listener runs, then the low
priority listener on the `ckboxImageEditor` namespace refreshes the command. -/
def fireOpen (sel : Option ModelElement) (fresh : Nat) (s : CmdState) :
    CmdState × List Effect :=
  let p := openHandler fresh s
  (refresh sel p.1, p.2)

/-- Firing `ckboxImageEditor:close`: the close listener runs, then the low
priority listener on the `ckboxImageEditor` namespace refreshes the command. -/
def fireClose (sel : Option ModelElement) (s : CmdState) :
    CmdState × List Effect :=
  let p := closeHandler s
  (refresh sel p.1, p.2)

/-- The effects of the `ckboxImageEditor:processed` listener: insert an image
with the attributes prepared from the asset it received, then set the
`ckboxImageId` attribute of the selected element to that asset id. -/
def processedHandlerEffects (asset : CKBoxRawAssetDefinition) : List Effect :=
  [Effect.insertImage (prepareImageAssetAttributes asset),
   Effect.setCkboxImageIdAttr asset.data.id]

/-- The `ckboxImageEditor:save` listener: awaits `_waitForAssetProcessed` and,
when it resolves (its resolved value is not inspected: both branches agree),
fires `ckboxImageEditor:processed` with the asset received at save time. -/
def saveHandlerEffects (endpoint : Nat → CKBoxRawAssetDataDefinition)
    (maxAttempts : Nat) (asset : CKBoxRawAssetDefinition) : List Effect :=
  match waitForAssetProcessed endpoint maxAttempts with
  | some _ => [Effect.fireProcessed asset]
  | none => [Effect.fireProcessed asset]

/-- The observable outcome of one save event: the value the wait resolved with,
and the effects of the save listener followed by those of the processed
listener that its `fireProcessed` triggers. -/
def saveEventOutcome (endpoint : Nat → CKBoxRawAssetDataDefinition)
    (maxAttempts : Nat) (asset : CKBoxRawAssetDefinition) :
    Option CKBoxRawAssetDataDefinition × List Effect :=
  (waitForAssetProcessed endpoint maxAttempts,
   saveHandlerEffects endpoint maxAttempts asset ++ processedHandlerEffects asset)

/-- The URL `new URL("assets/" + data.id, serviceOrigin)` of the status request. -/
def assetStatusUrl (serviceOrigin dataId : String) : String :=
  serviceOrigin ++ "/assets/" ++ dataId

/-- One HTTP request as `sendHttpRequest` receives it: the url, the id of the
`AbortController` whose signal it carries, and the authorization token. -/
structure HttpRequestRecord where
  url : String
  signalControllerId : Nat
  authorization : String
  deriving DecidableEq, Repr

/-- `_getAssetStatusFromServer` with controller allocation made explicit: the
call allocates one fresh `AbortController` (id `fresh`), sends the single
request carrying that signal, and returns the request sent, the status check
result on the response, and the next fresh id. -/
def getAssetStatusFromServerAlloc (serviceOrigin token dataId : String)
    (response : CKBoxRawAssetDataDefinition) (fresh : Nat) :
    HttpRequestRecord × Except String CKBoxRawAssetDataDefinition × Nat :=
  ({ url := assetStatusUrl serviceOrigin dataId
     signalControllerId := fresh
     authorization := token },
   getAssetStatusFromServer response, fresh + 1)

/-- The requests a bounded retry of `_getAssetStatusFromServerAlloc` sends:
each attempt allocates its own controller, and the allocation counter is
threaded through the attempts. -/
def retryRequests (serviceOrigin token dataId : String)
    (endpoint : Nat → CKBoxRawAssetDataDefinition) :
    Nat → Nat → Nat → List HttpRequestRecord
  | _, _, 0 => []
  | k, fresh, n + 1 =>
      let step := getAssetStatusFromServerAlloc serviceOrigin token dataId (endpoint k) fresh
      match step.2.1 with
      | Except.ok _ => [step.1]
      | Except.error _ =>
          step.1 :: retryRequests serviceOrigin token dataId endpoint (k + 1) step.2.2 n

/-- The constructor: `value` false, no wrapper, no cached image id (`isEnabled`
starts false on the `Command` base class). -/
def initialState : CmdState :=
  { value := false, isEnabled := false, wrapper := none, ckboxImageId := none }

/-- The constructor allocates the instance level controller `this.controller`
first; we give it id 0, so later allocations have positive ids. -/
def instanceControllerId : Nat := 0

/-! Sample data used by concrete counterexamples and witnesses. -/

/-- A status response that is still queued. -/
def queuedResponse : CKBoxRawAssetDataDefinition :=
  { id := "A1"
    metadata := { metadataProcessingStatus := some "queued", width := 100, height := 50 }
    imageUrl := "https://example.org/a1-v0" }

/-- The final success response of the sample poll: new width, height and url. -/
def successResponse : CKBoxRawAssetDataDefinition :=
  { id := "A1"
    metadata := { metadataProcessingStatus := some "success", width := 200, height := 80 }
    imageUrl := "https://example.org/a1-v1" }

/-- A response whose processing status is present but the empty string. -/
def emptyStatusResponse : CKBoxRawAssetDataDefinition :=
  { id := "A1"
    metadata := { metadataProcessingStatus := some "", width := 100, height := 50 }
    imageUrl := "https://example.org/a1-v0" }

/-- The asset as the dialog handed it to the save listener (not yet refined). -/
def savedAsset : CKBoxRawAssetDefinition :=
  { data := { id := "A1"
              metadata := { metadataProcessingStatus := none, width := 100, height := 50 }
              imageUrl := "https://example.org/a1-v0" } }

/-- A status endpoint answering queued once, then success. -/
def sampleEndpoint : Nat → CKBoxRawAssetDataDefinition
  | 0 => queuedResponse
  | _ + 1 => successResponse

/-- A status endpoint that always answers queued. -/
def alwaysQueuedEndpoint : Nat → CKBoxRawAssetDataDefinition :=
  fun _ => queuedResponse

/-- The command state while the dialog is open on the sample image. -/
def openDialogState : CmdState :=
  { value := true, isEnabled := true, wrapper := some 7, ckboxImageId := some "A1" }

/-- The selected element while the dialog is open: the attributed image. -/
def selectedImage : ModelElement :=
  { name := "imageInline", ckboxImageId := some "A1" }

/-- The eligibility predicate of the claims: the selection is an imageInline or
imageBlock element carrying a ckboxImageId attribute. -/
def eligibleSelection (sel : Option ModelElement) : Prop :=
  ∃ el, sel = some el ∧
    (el.name = "imageInline" ∨ el.name = "imageBlock") ∧ el.ckboxImageId.isSome

/-- How many times the editing view focus call occurs in an effect list. -/
def countFocus : List Effect → Nat
  | [] => 0
  | Effect.focusEditingView :: es => countFocus es + 1
  | _ :: es => countFocus es

/-! Helper lemmas. -/

/-- The status check succeeds exactly when the status is present, not empty and
not queued; on success it returns the response unchanged. -/
theorem getAssetStatus_eq (r : CKBoxRawAssetDataDefinition) :
    getAssetStatusFromServer r =
      if r.metadata.metadataProcessingStatus = none ∨
         r.metadata.metadataProcessingStatus = some "" ∨
         r.metadata.metadataProcessingStatus = some "queued"
      then Except.error "Image has not been processed yet."
      else Except.ok r := by
  unfold getAssetStatusFromServer
  cases h : r.metadata.metadataProcessingStatus with
  | none => simp [h, jsFalsyStr]
  | some s =>
      by_cases hs : s = ""
      · subst hs; simp [h, jsFalsyStr]
      · by_cases hq : s = "queued"
        · subst hq; simp [h, jsFalsyStr]
        · simp [h, jsFalsyStr, hs, hq]

/-- A run of the retry whose first `N` attempts fail and whose attempt `N`
succeeds returns that success after exactly `N + 1` attempts. -/
theorem retryTrace_ok {α : Type} (action : Nat → Except String α) (a : α) :
    ∀ (N k n : Nat), (∀ j, j < N → exceptIsOk (action (k + j)) = false) →
      action (k + N) = Except.ok a → N < n →
      retryTrace action k n = (Except.ok a, N + 1) := by
  intro N
  induction N with
  | zero =>
      intro k n _ hs hlt
      obtain ⟨m, rfl⟩ : ∃ m, n = m + 1 := ⟨n - 1, by omega⟩
      rw [Nat.add_zero] at hs
      simp [retryTrace, hs]
  | succ N ih =>
      intro k n hq hs hlt
      obtain ⟨m, rfl⟩ : ∃ m, n = m + 1 := ⟨n - 1, by omega⟩
      have h0 : exceptIsOk (action k) = false := by
        simpa using hq 0 (Nat.succ_pos N)
      cases hA : action k with
      | ok b => rw [hA] at h0; simp [exceptIsOk] at h0
      | error e =>
          have hq1 : ∀ j, j < N → exceptIsOk (action (k + 1 + j)) = false := by
            intro j hj
            have hj1 := hq (j + 1) (by omega)
            rwa [show k + (j + 1) = k + 1 + j by omega] at hj1
          have hs1 : action (k + 1 + N) = Except.ok a := by
            rwa [show k + (N + 1) = k + 1 + N by omega] at hs
          have ihr := ih (k + 1) m hq1 hs1 (by omega)
          simp [retryTrace, hA, ihr]

/-- A run of the retry all of whose attempts fail stops failed after exactly
the attempt bound. -/
theorem retryTrace_error {α : Type} (action : Nat → Except String α)
    (hq : ∀ j, exceptIsOk (action j) = false) :
    ∀ (n k : Nat), exceptIsOk (retryTrace action k n).1 = false ∧
      (retryTrace action k n).2 = n := by
  intro n
  induction n with
  | zero => intro k; simp [retryTrace, exceptIsOk]
  | succ n ih =>
      intro k
      have h0 := hq k
      cases hA : action k with
      | ok b => rw [hA] at h0; simp [exceptIsOk] at h0
      | error e =>
          have ihr := ih (k + 1)
          simp [retryTrace, hA, ihr.1, ihr.2]

/-- The controller ids of the requests a poll run sends are consecutive,
starting at the fresh counter. -/
theorem retryRequests_ids (serviceOrigin token dataId : String)
    (endpoint : Nat → CKBoxRawAssetDataDefinition) :
    ∀ (n k fresh : Nat),
      (retryRequests serviceOrigin token dataId endpoint k fresh n).map
          HttpRequestRecord.signalControllerId =
        List.range' fresh
          (retryRequests serviceOrigin token dataId endpoint k fresh n).length := by
  intro n
  induction n with
  | zero => intro k fresh; simp [retryRequests]
  | succ n ih =>
      intro k fresh
      cases hA : getAssetStatusFromServer (endpoint k) with
      | ok b =>
          simp [retryRequests, getAssetStatusFromServerAlloc, hA, List.range']
      | error e =>
          have ihr := ih (k + 1) (fresh + 1)
          simp [retryRequests, getAssetStatusFromServerAlloc, hA, ihr,
            List.range'_succ]

/-- `refresh` never touches the wrapper. -/
theorem refresh_wrapper (sel : Option ModelElement) (s : CmdState) :
    (refresh sel s).wrapper = s.wrapper := by
  cases sel with
  | none => rfl
  | some el =>
      by_cases h : (isImageElement (some el) && el.ckboxImageId.isSome) = true
      · simp [refresh, h]
      · simp [refresh, h]

/-! Claim theorems. -/

/-- C3 counterexample: a response whose `metadataProcessingStatus` is present
but the empty string is neither missing nor equal to "queued", yet
`_getAssetStatusFromServer` throws on it (the JavaScript `!status` guard also
rejects the empty string), so the claimed only-if direction fails. -/
theorem getAssetStatus_empty_string_cex :
    emptyStatusResponse.metadata.metadataProcessingStatus ≠ none ∧
    emptyStatusResponse.metadata.metadataProcessingStatus ≠ some "queued" ∧
    getAssetStatusFromServer emptyStatusResponse =
      Except.error "Image has not been processed yet." :=
  ⟨by decide, by decide, rfl⟩

/-- C3 (amended): for every status response, `_getAssetStatusFromServer` throws
exactly when `metadata.metadataProcessingStatus` is missing, the empty string
or "queued"; otherwise it returns the full response unchanged. -/
theorem getAssetStatus_throws_iff (r : CKBoxRawAssetDataDefinition) :
    (exceptIsOk (getAssetStatusFromServer r) = false ↔
      (r.metadata.metadataProcessingStatus = none ∨
       r.metadata.metadataProcessingStatus = some "" ∨
       r.metadata.metadataProcessingStatus = some "queued")) ∧
    (¬ (r.metadata.metadataProcessingStatus = none ∨
        r.metadata.metadataProcessingStatus = some "" ∨
        r.metadata.metadataProcessingStatus = some "queued") →
      getAssetStatusFromServer r = Except.ok r) := by
  by_cases h : r.metadata.metadataProcessingStatus = none ∨
      r.metadata.metadataProcessingStatus = some "" ∨
      r.metadata.metadataProcessingStatus = some "queued"
  · rw [getAssetStatus_eq r, if_pos h]
    simp [exceptIsOk, h]
  · rw [getAssetStatus_eq r, if_neg h]
    simp [exceptIsOk, h]

/-- C3 witness: a response with status "success" passes the check unchanged. -/
theorem getAssetStatus_throws_iff_witness :
    getAssetStatusFromServer successResponse = Except.ok successResponse :=
  (getAssetStatus_throws_iff successResponse).2 (by decide)

/-- C5: against a status endpoint that always answers queued, every attempt
throws and the overall wait stops, failed, after exactly the configured
attempt bound `n`, rather than polling forever. -/
theorem wait_terminates_at_bound (endpoint : Nat → CKBoxRawAssetDataDefinition)
    (n : Nat)
    (hq : ∀ k, (endpoint k).metadata.metadataProcessingStatus = some "queued") :
    (retryTrace (pollAction endpoint) 0 n).2 = n ∧
    exceptIsOk (retry (pollAction endpoint) n) = false ∧
    waitForAssetProcessed endpoint n = none := by
  have hfail : ∀ j, exceptIsOk (pollAction endpoint j) = false := by
    intro j
    show exceptIsOk (getAssetStatusFromServer (endpoint j)) = false
    rw [getAssetStatus_eq, if_pos (Or.inr (Or.inr (hq j)))]
    rfl
  have h1 := retryTrace_error (pollAction endpoint) hfail n 0
  have h2 : waitForAssetProcessed endpoint n = none := by
    unfold waitForAssetProcessed retry
    cases hA : (retryTrace (pollAction endpoint) 0 n).1 with
    | ok a =>
        have hx := h1.1
        rw [hA] at hx
        simp [exceptIsOk] at hx
    | error e => rfl
  exact ⟨h1.2, h1.1, h2⟩

/-- C5 witness: with the sample always-queued endpoint and bound 4, the wait
stops failed after exactly 4 attempts. -/
theorem wait_terminates_at_bound_witness :
    (retryTrace (pollAction alwaysQueuedEndpoint) 0 4).2 = 4 ∧
    waitForAssetProcessed alwaysQueuedEndpoint 4 = none :=
  ⟨(wait_terminates_at_bound alwaysQueuedEndpoint 4 (fun _ => rfl)).1,
   (wait_terminates_at_bound alwaysQueuedEndpoint 4 (fun _ => rfl)).2.2⟩

/-- C4: when every attempt fails, so the bounded retry is exhausted,
`_waitForAssetProcessed` catches the failure and resolves normally with
undefined: the caller sees no error, and the save listener goes on without
emitting any failure event or diagnostic effect. -/
theorem wait_swallows_exhaustion (endpoint : Nat → CKBoxRawAssetDataDefinition)
    (n : Nat) (asset : CKBoxRawAssetDefinition)
    (hq : ∀ k, exceptIsOk (pollAction endpoint k) = false) :
    waitForAssetProcessed endpoint n = none ∧
    saveHandlerEffects endpoint n asset = [Effect.fireProcessed asset] ∧
    Effect.fireProcessingFailed ∉ (saveEventOutcome endpoint n asset).2 := by
  have h1 := retryTrace_error (pollAction endpoint) hq n 0
  have h2 : waitForAssetProcessed endpoint n = none := by
    unfold waitForAssetProcessed retry
    cases hA : (retryTrace (pollAction endpoint) 0 n).1 with
    | ok a =>
        have hx := h1.1
        rw [hA] at hx
        simp [exceptIsOk] at hx
    | error e => rfl
  refine ⟨h2, ?_, ?_⟩
  · simp [saveHandlerEffects, h2]
  · simp [saveEventOutcome, saveHandlerEffects, processedHandlerEffects, h2]

/-- C4 witness: the sample always-queued endpoint exhausts the bound, the wait
resolves with none, and the save listener still just fires processed. -/
theorem wait_swallows_exhaustion_witness :
    waitForAssetProcessed alwaysQueuedEndpoint 4 = none ∧
    saveHandlerEffects alwaysQueuedEndpoint 4 savedAsset =
      [Effect.fireProcessed savedAsset] :=
  ⟨(wait_swallows_exhaustion alwaysQueuedEndpoint 4 savedAsset (fun _ => rfl)).1,
   (wait_swallows_exhaustion alwaysQueuedEndpoint 4 savedAsset (fun _ => rfl)).2.1⟩

/-- C1 counterexample: with the sample endpoint (queued once, then success) the
poller resolves with the success response after 2 attempts, yet the processed
event carries the saved asset, whose data differs from that success response,
and the inserted image attributes are those of the saved asset, not those of
the success response. -/
theorem processed_carries_saved_asset_cex :
    retryTrace (pollAction sampleEndpoint) 0 4 = (Except.ok successResponse, 2) ∧
    (saveEventOutcome sampleEndpoint 4 savedAsset).1 = some successResponse ∧
    (saveEventOutcome sampleEndpoint 4 savedAsset).2 =
      [Effect.fireProcessed savedAsset,
       Effect.insertImage (prepareImageAssetAttributes savedAsset),
       Effect.setCkboxImageIdAttr "A1"] ∧
    savedAsset.data ≠ successResponse ∧
    prepareImageAssetAttributes savedAsset ≠
      prepareImageAssetAttributes { data := successResponse } :=
  ⟨rfl, rfl, rfl, by decide, by decide⟩

/-- C1 (amended): with a status endpoint answering queued for the first N
attempts and a processed status at attempt N, the poller resolves with that
success response after exactly N+1 attempts; the processed event, however,
carries the asset received at save time, and the inserted image attributes are
derived from that saved asset — the resolved poll value is discarded. -/
theorem save_poll_success_behavior (endpoint : Nat → CKBoxRawAssetDataDefinition)
    (asset : CKBoxRawAssetDefinition) (N n : Nat)
    (hq : ∀ k, k < N → (endpoint k).metadata.metadataProcessingStatus = some "queued")
    (hs : exceptIsOk (getAssetStatusFromServer (endpoint N)) = true)
    (hlt : N < n) :
    retryTrace (pollAction endpoint) 0 n = (Except.ok (endpoint N), N + 1) ∧
    (saveEventOutcome endpoint n asset).1 = some (endpoint N) ∧
    (saveEventOutcome endpoint n asset).2 =
      [Effect.fireProcessed asset,
       Effect.insertImage (prepareImageAssetAttributes asset),
       Effect.setCkboxImageIdAttr asset.data.id] := by
  have hq2 : ∀ j, j < N → exceptIsOk (pollAction endpoint (0 + j)) = false := by
    intro j hj
    show exceptIsOk (getAssetStatusFromServer (endpoint (0 + j))) = false
    rw [Nat.zero_add]
    rw [getAssetStatus_eq, if_pos (Or.inr (Or.inr (hq j hj)))]
    rfl
  have hok : getAssetStatusFromServer (endpoint N) = Except.ok (endpoint N) := by
    by_cases hc : (endpoint N).metadata.metadataProcessingStatus = none ∨
        (endpoint N).metadata.metadataProcessingStatus = some "" ∨
        (endpoint N).metadata.metadataProcessingStatus = some "queued"
    · exfalso
      rw [getAssetStatus_eq, if_pos hc] at hs
      simp [exceptIsOk] at hs
    · rw [getAssetStatus_eq, if_neg hc]
  have hok0 : pollAction endpoint (0 + N) = Except.ok (endpoint N) := by
    show getAssetStatusFromServer (endpoint (0 + N)) = Except.ok (endpoint N)
    rw [Nat.zero_add, hok]
  have hmain := retryTrace_ok (pollAction endpoint) (endpoint N) N 0 n hq2 hok0 hlt
  have hwait : waitForAssetProcessed endpoint n = some (endpoint N) := by
    unfold waitForAssetProcessed retry
    rw [hmain]
  refine ⟨hmain, hwait, ?_⟩
  simp [saveEventOutcome, saveHandlerEffects, processedHandlerEffects, hwait]

/-- C1 witness: the amended theorem applied to the sample endpoint with N = 1. -/
theorem save_poll_success_behavior_witness :
    retryTrace (pollAction sampleEndpoint) 0 4 = (Except.ok (sampleEndpoint 1), 2) ∧
    (saveEventOutcome sampleEndpoint 4 savedAsset).1 = some (sampleEndpoint 1) :=
  ⟨(save_poll_success_behavior sampleEndpoint savedAsset 1 4
      (by
        intro k hk
        cases k with
        | zero => rfl
        | succ m => omega)
      (by decide) (by decide)).1,
   (save_poll_success_behavior sampleEndpoint savedAsset 1 4
      (by
        intro k hk
        cases k with
        | zero => rfl
        | succ m => omega)
      (by decide) (by decide)).2.1⟩

/-- C2: for every save event, the save listener fires processed with the
save-time asset whenever the wait resolves — and it always resolves, also when
the retry bound was exhausted — so the insert-image operation occurs even when
the wait failed. -/
theorem save_always_fires_processed (endpoint : Nat → CKBoxRawAssetDataDefinition)
    (n : Nat) (asset : CKBoxRawAssetDefinition) :
    saveHandlerEffects endpoint n asset = [Effect.fireProcessed asset] ∧
    (saveEventOutcome endpoint n asset).2 =
      [Effect.fireProcessed asset,
       Effect.insertImage (prepareImageAssetAttributes asset),
       Effect.setCkboxImageIdAttr asset.data.id] ∧
    (waitForAssetProcessed endpoint n = none →
      Effect.insertImage (prepareImageAssetAttributes asset) ∈
        (saveEventOutcome endpoint n asset).2) := by
  have h1 : saveHandlerEffects endpoint n asset = [Effect.fireProcessed asset] := by
    unfold saveHandlerEffects
    cases waitForAssetProcessed endpoint n <;> rfl
  refine ⟨h1, ?_, ?_⟩
  · simp [saveEventOutcome, h1, processedHandlerEffects]
  · intro _
    simp [saveEventOutcome, h1, processedHandlerEffects]

/-- C2 witness: with the always-queued endpoint the wait resolves with none and
the insert-image effect still occurs. -/
theorem save_always_fires_processed_witness :
    Effect.insertImage (prepareImageAssetAttributes savedAsset) ∈
      (saveEventOutcome alwaysQueuedEndpoint 4 savedAsset).2 :=
  (save_always_fires_processed alwaysQueuedEndpoint 4 savedAsset).2.2 (by decide)

/-- C6: after every refresh, enabled state and the cached target id are
functions of the current selection alone: false and null unless the selection
is an imageInline or imageBlock element carrying a ckboxImageId attribute, in
which case they are true and that attribute; the prior cached state is never
consulted for either field. -/
theorem refresh_from_selection (sel : Option ModelElement) (s t : CmdState) :
    (¬ eligibleSelection sel →
      (refresh sel s).isEnabled = false ∧ (refresh sel s).ckboxImageId = none) ∧
    (∀ el, sel = some el → eligibleSelection sel →
      (refresh sel s).isEnabled = true ∧
      (refresh sel s).ckboxImageId = el.ckboxImageId) ∧
    ((refresh sel s).isEnabled = (refresh sel t).isEnabled ∧
     (refresh sel s).ckboxImageId = (refresh sel t).ckboxImageId) := by
  have cond_iff : ∀ el : ModelElement,
      (isImageElement (some el) && el.ckboxImageId.isSome) = true ↔
        eligibleSelection (some el) := by
    intro el
    simp [isImageElement, eligibleSelection, Bool.and_eq_true, Bool.or_eq_true,
      beq_iff_eq]
  cases sel with
  | none =>
      refine ⟨fun _ => ⟨rfl, rfl⟩, ?_, rfl, rfl⟩
      intro el h
      cases h
  | some el =>
      by_cases hc : (isImageElement (some el) && el.ckboxImageId.isSome) = true
      · have he : eligibleSelection (some el) := (cond_iff el).1 hc
        refine ⟨fun hne => absurd he hne, ?_, ?_, ?_⟩
        · intro el2 heq _
          injection heq with h2
          subst h2
          exact ⟨by simp [refresh, hc], by simp [refresh, hc]⟩
        · simp [refresh, hc]
        · simp [refresh, hc]
      · have hne : ¬ eligibleSelection (some el) := fun he => hc ((cond_iff el).2 he)
        refine ⟨fun _ => ⟨by simp [refresh, hc], by simp [refresh, hc]⟩, ?_,
          by simp [refresh, hc], by simp [refresh, hc]⟩
        intro el2 heq he
        exact absurd he hne

/-- C6 witness: refreshing over the attributed sample image enables the
command and caches its id, from the pristine initial state. -/
theorem refresh_from_selection_witness :
    (refresh (some selectedImage) initialState).isEnabled = true ∧
    (refresh (some selectedImage) initialState).ckboxImageId =
      selectedImage.ckboxImageId :=
  (refresh_from_selection (some selectedImage) initialState openDialogState).2.1
    selectedImage rfl ⟨selectedImage, rfl, Or.inl rfl, rfl⟩

/-- C7: firing the open event while the dialog is already open (wrapper not
null) or while the command is disabled leaves the state unchanged and emits
nothing: no second mount point is ever created, so at most one edit session is
open per command instance and the mount point is created at most once per
session. -/
theorem open_noop_when_open_or_disabled (fresh : Nat) (s : CmdState)
    (h : s.wrapper ≠ none ∨ s.isEnabled = false) :
    openHandler fresh s = (s, []) ∧
    (∀ w, Effect.createWrapper w ∉ (openHandler fresh s).2) ∧
    (∀ w a, Effect.mountImageEditor w a ∉ (openHandler fresh s).2) := by
  have hcond : (!s.isEnabled || getValue s) = true := by
    rcases h with h | h
    · have hs : s.wrapper.isSome = true := Option.isSome_iff_ne_none.2 h
      simp [getValue, hs]
    · simp [h]
  have h1 : openHandler fresh s = (s, []) := by
    simp [openHandler, hcond]
  refine ⟨h1, ?_, ?_⟩
  · intro w
    rw [h1]
    simp
  · intro w a
    rw [h1]
    simp

/-- C7 witness: with the dialog already open, a further open event is a no-op. -/
theorem open_noop_witness :
    openHandler 8 openDialogState = (openDialogState, []) :=
  (open_noop_when_open_or_disabled 8 openDialogState (Or.inl (by decide))).1

/-- C8 counterexample: closing while the dialog is open on the attributed image
clears the mount point but leaves the cached target image id set, both in the
close listener itself and after the subsequent low priority refresh, refuting
that close clears the cached target image id. -/
theorem close_keeps_target_id_cex :
    ((closeHandler openDialogState).1.ckboxImageId = some "A1") ∧
    ((fireClose (some selectedImage) openDialogState).1.ckboxImageId = some "A1") ∧
    ((fireClose (some selectedImage) openDialogState).1.ckboxImageId ≠ none) ∧
    ((fireClose (some selectedImage) openDialogState).1.wrapper = none) := by
  decide

/-- C8 (amended): from every starting state the close event clears the mount
point, is idempotent (a second close is a no-op), triggers no insert-image
operation and, when a mount point was present, invokes the editing view focus
exactly once; the cached target image id is however not cleared by the close
listener — it is left as it was (only the low priority refresh recomputes it
from the selection). -/
theorem close_spec (s : CmdState) :
    ((closeHandler s).1.wrapper = none) ∧
    (closeHandler (closeHandler s).1 = ((closeHandler s).1, [])) ∧
    ((closeHandler s).1.ckboxImageId = s.ckboxImageId) ∧
    (∀ a, Effect.insertImage a ∉ (closeHandler s).2) ∧
    (s.wrapper = none → closeHandler s = (s, [])) ∧
    (∀ w, s.wrapper = some w →
      (closeHandler s).2 = [Effect.removeWrapper w, Effect.focusEditingView] ∧
      countFocus (closeHandler s).2 = 1) := by
  cases hw : s.wrapper with
  | none =>
      have h1 : closeHandler s = (s, []) := by
        simp [closeHandler, hw]
      refine ⟨?_, ?_, ?_, ?_, fun _ => h1, ?_⟩
      · rw [h1]
        exact hw
      · rw [h1]
        exact h1
      · rw [h1]
      · intro a
        rw [h1]
        simp
      · intro w hww
        exact Option.noConfusion hww
  | some w =>
      have h1 : closeHandler s =
          ({ s with wrapper := none },
           [Effect.removeWrapper w, Effect.focusEditingView]) := by
        simp [closeHandler, hw]
      refine ⟨?_, ?_, ?_, ?_, ?_, ?_⟩
      · rw [h1]
      · rw [h1]
        rfl
      · rw [h1]
      · intro a
        rw [h1]
        simp
      · intro hww
        exact Option.noConfusion hww
      · intro w2 hww
        injection hww with hw2
        subst hw2
        rw [h1]
        exact ⟨rfl, rfl⟩

/-- C8 witness: closing from the open dialog state removes the wrapper and
focuses the editing view exactly once. -/
theorem close_spec_witness :
    (closeHandler openDialogState).2 =
      [Effect.removeWrapper 7, Effect.focusEditingView] ∧
    countFocus (closeHandler openDialogState).2 = 1 :=
  (close_spec openDialogState).2.2.2.2.2 7 rfl

/-- C9: the close event emits no cancellation: the command returns to the
closed shape (no mounted wrapper) while the pending save continuation, which
does not depend on the command state at all, still fires the processed event
(followed by the insertion) afterwards. -/
theorem close_does_not_cancel_poll (sel : Option ModelElement) (s : CmdState)
    (endpoint : Nat → CKBoxRawAssetDataDefinition) (n : Nat)
    (asset : CKBoxRawAssetDefinition) (hw : s.wrapper ≠ none) :
    (Effect.abortInstanceController ∉ (fireClose sel s).2) ∧
    ((fireClose sel s).1.wrapper = none) ∧
    Effect.fireProcessed asset ∈ (saveEventOutcome endpoint n asset).2 := by
  obtain ⟨w, hww⟩ := Option.ne_none_iff_exists'.1 hw
  have heff : (fireClose sel s).2 =
      [Effect.removeWrapper w, Effect.focusEditingView] := by
    simp [fireClose, closeHandler, hww]
  have hwrap : (fireClose sel s).1.wrapper = none := by
    show (refresh sel (closeHandler s).1).wrapper = none
    rw [refresh_wrapper]
    simp [closeHandler, hww]
  have h1 : saveHandlerEffects endpoint n asset = [Effect.fireProcessed asset] := by
    unfold saveHandlerEffects
    cases waitForAssetProcessed endpoint n <;> rfl
  refine ⟨?_, hwrap, ?_⟩
  · rw [heff]
    simp
  · simp [saveEventOutcome, h1]

/-- C9 witness: closing the open dialog returns the command to closed and the
pending poll on the always queued endpoint still fires processed. -/
theorem close_does_not_cancel_poll_witness :
    (fireClose (some selectedImage) openDialogState).1.wrapper = none ∧
    Effect.fireProcessed savedAsset ∈
      (saveEventOutcome alwaysQueuedEndpoint 4 savedAsset).2 :=
  ⟨(close_does_not_cancel_poll (some selectedImage) openDialogState
      alwaysQueuedEndpoint 4 savedAsset (by decide)).2.1,
   (close_does_not_cancel_poll (some selectedImage) openDialogState
      alwaysQueuedEndpoint 4 savedAsset (by decide)).2.2⟩

/-- C10: every status call allocates its own fresh AbortController whose signal
goes to exactly that single request, after which the allocation counter moves
on; across the attempts of one poll run the controller ids are pairwise
distinct, and the instance level controller created in the constructor never
carries the signal of any poll request. -/
theorem fresh_controller_per_request (serviceOrigin token dataId : String)
    (endpoint : Nat → CKBoxRawAssetDataDefinition) (k fresh n : Nat)
    (hfresh : instanceControllerId < fresh) :
    (∀ response f,
      (getAssetStatusFromServerAlloc serviceOrigin token dataId response
          f).1.signalControllerId = f ∧
      (getAssetStatusFromServerAlloc serviceOrigin token dataId response
          f).2.2 = f + 1) ∧
    ((retryRequests serviceOrigin token dataId endpoint k fresh n).map
        HttpRequestRecord.signalControllerId).Nodup ∧
    (∀ r ∈ retryRequests serviceOrigin token dataId endpoint k fresh n,
      r.signalControllerId ≠ instanceControllerId) := by
  have hids := retryRequests_ids serviceOrigin token dataId endpoint n k fresh
  refine ⟨fun response f => ⟨rfl, rfl⟩, ?_, ?_⟩
  · rw [hids]
    exact List.nodup_range' fresh _ 1 Nat.one_pos
  · intro r hr
    have hmem : r.signalControllerId ∈
        (retryRequests serviceOrigin token dataId endpoint k fresh n).map
          HttpRequestRecord.signalControllerId :=
      List.mem_map_of_mem _ hr
    rw [hids] at hmem
    have hle := (List.mem_range'_1.1 hmem).1
    omega

/-- C10 witness: a three-attempt poll run starting after the constructor
allocation sends requests with pairwise distinct controller ids. -/
theorem fresh_controller_per_request_witness :
    ((retryRequests "https://api.ckbox.io" "tok" "A1" alwaysQueuedEndpoint 0 1 3).map
        HttpRequestRecord.signalControllerId).Nodup :=
  (fresh_controller_per_request "https://api.ckbox.io" "tok" "A1"
      alwaysQueuedEndpoint 0 1 3 (by decide)).2.1

end CKBoxImageEdit
